import Mathlib

/-!
# Verification of `laplace/curvature.py`

Shallow embedding of the curvature-computation interface: the abstract
`CurvatureInterface` (likelihood selection, loss-function selection, scalar
factor, full-GGN assembly) and the two concrete families `BackPackGGN` and
`BackPackEF`.

Modelling conventions:
* Tensor values are rationals (`ℚ`); the spec's formulas are exact arithmetic.
* Dense tensors produced by the Jacobian routine are `Fin`-indexed functions
  (`Js : Fin M → Fin K → Fin P → ℚ`), matching `torch.einsum` semantics.
* Quantities that the code flattens and concatenates (`backpack` per-parameter
  attributes) are lists: `p.x.data.flatten()` is a `List ℚ`,
  `p.grad_batch.data.flatten(start_dim=1)` is a `List (List ℚ)` of per-example
  rows, and a Kronecker factor is a `List (List ℚ)` of matrix rows.
* External collaborators (the torch loss evaluation, `torch.softmax`, the
  Jacobian routines, the scalar multiplication `Kron.__mul__` of the external
  container) are universally quantified parameters: the embedding states what
  the code under `src/` does with their results.
* `raise` is `Except.error`; side effects (`extend`, forward/backward passes,
  the Jacobian call) are recorded in an explicit event trace so that
  "fails before any pass runs" is the statement "the trace is empty".
-/

open scoped BigOperators

/-- The loss function selected at construction:
`MSELoss(reduction='sum')` or `CrossEntropyLoss(reduction='sum')`. -/
inductive LossFunc
  | mseSum
  | ceSum
deriving DecidableEq, Repr

/-- State set up by `CurvatureInterface.__init__`: the likelihood string,
the selected loss function and the scalar correction factor. -/
structure CurvBase where
  likelihood : String
  lossfunc : LossFunc
  factor : ℚ
deriving DecidableEq, Repr

namespace CurvatureInterface

/-- `CurvatureInterface.__init__`: asserts
`likelihood in ['regression', 'classification']` (an `AssertionError` escapes
the constructor otherwise), then selects the sum-reduced loss and the factor:
`MSELoss(reduction='sum')` and `0.5` for regression,
`CrossEntropyLoss(reduction='sum')` and `1.0` for classification. -/
def init (likelihood : String) : Except String CurvBase :=
  if likelihood = "regression" ∨ likelihood = "classification" then
    if likelihood = "regression" then
      Except.ok ⟨likelihood, LossFunc.mseSum, 1/2⟩
    else
      Except.ok ⟨likelihood, LossFunc.ceSum, 1⟩
  else
    Except.error "AssertionError"

end CurvatureInterface

/-- One `torch.nn.Parameter` after a `backpack`-extended backward pass: the
per-parameter quantities the external differentiation engine attaches.
Each flattened quantity keeps the code's flattening:
`diag_ggn_exact`, `diag_ggn_mc` and `sum_grad_squared` model
`p.<attr>.data.flatten()`; `grad_batch` models
`p.grad_batch.data.flatten(start_dim=1)` (one row per example); `kflr` and
`kfac` are the per-parameter lists of Kronecker factor matrices. -/
structure PTensor where
  diag_ggn_exact : List ℚ
  diag_ggn_mc : List ℚ
  sum_grad_squared : List ℚ
  grad_batch : List (List ℚ)
  kflr : List (List (List ℚ))
  kfac : List (List (List ℚ))
deriving DecidableEq, Repr

/-- The model collaborator: its full forward pass `model(X)` (one output row
per example) and the ordered parameter sequences of the full model
(`model.parameters()`) and of its last layer
(`model.last_layer.parameters()`). -/
structure TModel where
  fullForward : List (List ℚ) → List (List ℚ)
  params : List PTensor
  lastLayerParams : List PTensor

/-- `BackPackInterface._model`: the last-layer submodule when `last_layer`
is set, the full model otherwise — of which the code only consumes the
parameter sequence. -/
def subModelParams (last_layer : Bool) (model : TModel) : List PTensor :=
  if last_layer then model.lastLayerParams else model.params

/-- Construction-time side effects on the external differentiation engine:
`extend(self._model)` and `extend(self.lossfunc)`. -/
inductive ExtendEvent
  | extendModel
  | extendLossFunc
deriving DecidableEq, Repr

/-- State set up by `BackPackInterface.__init__` (shared by `BackPackEF`,
which adds nothing). -/
structure BPIface where
  base : CurvBase
  last_layer : Bool
deriving DecidableEq, Repr

namespace BackPackInterface

/-- `BackPackInterface.__init__(model, likelihood, last_layer)`: runs the
base constructor first (whose assertion may escape), then performs the two
`extend` registrations.  The returned trace lists the registrations actually
performed before the constructor returned or raised. -/
def init (likelihood : String) (last_layer : Bool) :
    List ExtendEvent × Except String BPIface :=
  match CurvatureInterface.init likelihood with
  | Except.error e => ([], Except.error e)
  | Except.ok base =>
      ([ExtendEvent.extendModel, ExtendEvent.extendLossFunc],
       Except.ok ⟨base, last_layer⟩)

end BackPackInterface

/-- State set up by `BackPackGGN.__init__`: the base-interface state plus the
`stochastic` flag. -/
structure GGNIface where
  base : CurvBase
  last_layer : Bool
  stochastic : Bool
deriving DecidableEq, Repr

namespace BackPackGGN

/-- `BackPackGGN.__init__(model, likelihood, last_layer, stochastic)`:
delegates to `BackPackInterface.__init__`, then stores `stochastic`. -/
def init (likelihood : String) (last_layer stochastic : Bool) :
    List ExtendEvent × Except String GGNIface :=
  match BackPackInterface.init likelihood last_layer with
  | (tr, Except.error e) => (tr, Except.error e)
  | (tr, Except.ok bp) => (tr, Except.ok ⟨bp.base, bp.last_layer, stochastic⟩)

/-- `BackPackGGN._get_diag_ggn`: concatenate the flattened per-parameter
diagonal-GGN quantities (`diag_ggn_mc` when `stochastic`, `diag_ggn_exact`
otherwise) over `self._model.parameters()`. -/
def getDiagGGN (iface : GGNIface) (model : TModel) : List ℚ :=
  if iface.stochastic then
    ((subModelParams iface.last_layer model).map
      (fun p => p.diag_ggn_mc)).flatten
  else
    ((subModelParams iface.last_layer model).map
      (fun p => p.diag_ggn_exact)).flatten

end BackPackGGN

/-- The external `Kron` container (`laplace.matrix.Kron`): an ordered list of
per-layer factor groups, each a list of factor matrices.  Only its `kfacs`
field is read or written by the code under verification. -/
structure KronT where
  kfacs : List (List (List (List ℚ)))
deriving DecidableEq, Repr

namespace BackPackGGN

/-- `BackPackGGN._get_kron_factors`: the `Kron` container built from the
per-parameter factor lists (`kfac` when `stochastic`, `kflr` otherwise). -/
def getKronFactors (iface : GGNIface) (model : TModel) : KronT :=
  if iface.stochastic then
    ⟨(subModelParams iface.last_layer model).map (fun p => p.kfac)⟩
  else
    ⟨(subModelParams iface.last_layer model).map (fun p => p.kflr)⟩

/-- `BackPackGGN._rescale_kron_factors(kron, M, N)`: for every factor group
`F` with `len(F) == 2`, execute `F[1] *= M/N`; all other groups are left
untouched. -/
def rescaleKronFactors (kron : KronT) (M N : ℕ) : KronT :=
  ⟨kron.kfacs.map (fun F =>
    match F with
    | [a, b] => [a, b.map (fun row => row.map (fun x => x * ((M : ℚ) / N)))]
    | other => other)⟩

end BackPackGGN

/-- The `CurvBase` produced by `CurvatureInterface.init "regression"`. -/
def regressionBase : CurvBase := ⟨"regression", LossFunc.mseSum, 1/2⟩

/-- The `CurvBase` produced by `CurvatureInterface.init "classification"`. -/
def classificationBase : CurvBase := ⟨"classification", LossFunc.ceSum, 1⟩

/-- `torch.einsum('mkp,mkq->pq', Js, Js)`: the regression branch of
`_get_full_ggn`. -/
def einsumJJ {M K P : ℕ} (Js : Fin M → Fin K → Fin P → ℚ) :
    Fin P → Fin P → ℚ :=
  fun p q => ∑ m, ∑ k, Js m k p * Js m k q

/-- `torch.diag_embed(ps) - torch.einsum('mk,mc->mck', ps, ps)`: the
per-example Hessian `diag(p) - p pᵀ` of the log likelihood w.r.t. the
logits, built from the softmax probabilities `ps`. -/
def hLik {M K : ℕ} (ps : Fin M → Fin K → ℚ) : Fin M → Fin K → Fin K → ℚ :=
  fun m c k => (if c = k then ps m c else 0) - ps m k * ps m c

/-- `torch.einsum('mcp,mck,mkq->pq', Js, H_lik, Js)`: the classification
branch of `_get_full_ggn`. -/
def einsumJHJ {M K P : ℕ} (Js : Fin M → Fin K → Fin P → ℚ)
    (H : Fin M → Fin K → Fin K → ℚ) : Fin P → Fin P → ℚ :=
  fun p q => ∑ m, ∑ c, ∑ k, Js m c p * H m c k * Js m k q

namespace CurvatureInterface

/-- `CurvatureInterface._get_full_ggn(Js, f, y)`.

`lossEval` is the external evaluation `self.lossfunc(f, y)` of the torch loss
object on the raw outputs, and `softmax` is the external
`torch.softmax(·, dim=-1)` applied to each example's output row.  The method
returns `(self.factor * loss).detach()` together with the assembled `H_ggn`;
note that `H_ggn` itself is *not* multiplied by `self.factor`. -/
def getFullGGN {M K P : ℕ} {α : Type} (base : CurvBase)
    (softmax : (Fin K → ℚ) → Fin K → ℚ)
    (lossEval : (Fin M → Fin K → ℚ) → List α → ℚ)
    (Js : Fin M → Fin K → Fin P → ℚ) (f : Fin M → Fin K → ℚ) (y : List α) :
    ℚ × (Fin P → Fin P → ℚ) :=
  let loss := base.factor * lossEval f y
  if base.likelihood = "regression" then
    (loss, einsumJJ Js)
  else
    (loss, einsumJHJ Js (hLik (fun m => softmax (f m))))

end CurvatureInterface

/-- Call-scoped side effects through the external differentiation engine:
the forward pass `self.model(X)`, the `loss.backward()` pass under a
`backpack` extension context, and the call into the external Jacobian
routine (`jacobians` / `last_layer_jacobians`). -/
inductive Event
  | forwardPass
  | backwardPass
  | jacobiansCall
deriving DecidableEq, Repr

namespace BackPackGGN

/-- `BackPackGGN.diag(X, y)`: forward pass `f = self.model(X)` (the full
model), unscaled loss `self.lossfunc(f, y)` (evaluated by the external torch
loss object `lossEval`), backward pass under `DiagGGNMC`/`DiagGGNExact`, then
`(self.factor * loss.detach(), self.factor * self._get_diag_ggn())`. -/
def diag {α : Type} (iface : GGNIface) (model : TModel)
    (lossEval : List (List ℚ) → List α → ℚ)
    (X : List (List ℚ)) (y : List α) : ℚ × List ℚ :=
  let f := model.fullForward X
  let loss := lossEval f y
  (iface.base.factor * loss,
   (getDiagGGN iface model).map (fun v => iface.base.factor * v))

/-- `BackPackGGN.kron(X, y, N)`: forward pass on the full model, unscaled
loss, backward pass under `KFAC`/`KFLR`, factor collection, rescaling with
`M = len(y)`, then `(self.factor * loss.detach(), self.factor * kron)`.
`kronSMul` is the external scalar multiplication `Kron.__mul__` of the
container collaborator. -/
def kron {α : Type} (iface : GGNIface) (model : TModel)
    (lossEval : List (List ℚ) → List α → ℚ)
    (kronSMul : ℚ → KronT → KronT)
    (X : List (List ℚ)) (y : List α) (N : ℕ) : ℚ × KronT :=
  let f := model.fullForward X
  let loss := lossEval f y
  let k := getKronFactors iface model
  let k2 := rescaleKronFactors k y.length N
  (iface.base.factor * loss, kronSMul iface.base.factor k2)

/-- `BackPackGGN.full(X, y)`: raises
`ValueError('Stochastic approximation not implemented for full GGN.')` when
`self.stochastic`, before anything else runs (empty event trace).  Otherwise
it calls the external Jacobian routine (`last_layer_jacobians` when
`self.last_layer`, `jacobians` otherwise) — `jacs` is the `(Js, f)` pair that
call returns — and hands its result to `CurvatureInterface._get_full_ggn`. -/
def full {M K P : ℕ} {α : Type} (iface : GGNIface)
    (softmax : (Fin K → ℚ) → Fin K → ℚ)
    (lossEval : (Fin M → Fin K → ℚ) → List α → ℚ)
    (jacs : (Fin M → Fin K → Fin P → ℚ) × (Fin M → Fin K → ℚ))
    (y : List α) :
    List Event × Except String (ℚ × (Fin P → Fin P → ℚ)) :=
  if iface.stochastic then
    ([], Except.error "ValueError: Stochastic approximation not implemented for full GGN.")
  else
    ([Event.jacobiansCall],
     Except.ok (CurvatureInterface.getFullGGN iface.base softmax lossEval
        jacs.1 jacs.2 y))

end BackPackGGN

/-- `torch.cat(ts, dim=1)`: concatenate matrices (lists of rows) column-wise,
row by row. -/
def catColumns : List (List (List ℚ)) → List (List ℚ)
  | [] => []
  | [t] => t
  | t :: ts => List.zipWith (fun r s => r ++ s) t (catColumns ts)

/-- The `p, q` entry of `Gs.T @ Gs` for a matrix `Gs` given as a list of
rows: the sum over rows of the product of the row's `p`-th and `q`-th
entries. -/
def gram (G : List (List ℚ)) (p q : ℕ) : ℚ :=
  (G.map (fun row => row.getD p 0 * row.getD q 0)).sum

namespace BackPackEF

/-- `BackPackEF._get_individual_gradients`: `torch.cat` along `dim=1` of the
per-parameter `p.grad_batch.data.flatten(start_dim=1)` matrices over
`self._model.parameters()`, yielding the `M × P` matrix of per-example
gradients. -/
def getIndividualGradients (iface : BPIface) (model : TModel) :
    List (List ℚ) :=
  catColumns ((subModelParams iface.last_layer model).map
    (fun p => p.grad_batch))

/-- `BackPackEF.diag(X, y)`: forward pass on the full model, unscaled loss,
backward pass under `SumGradSquared`, concatenation of the flattened
per-parameter `sum_grad_squared` quantities, then
`(self.factor * loss.detach(), self.factor * diag_EF)`. -/
def diag {α : Type} (iface : BPIface) (model : TModel)
    (lossEval : List (List ℚ) → List α → ℚ)
    (X : List (List ℚ)) (y : List α) : ℚ × List ℚ :=
  let f := model.fullForward X
  let loss := lossEval f y
  let diagEF := ((subModelParams iface.last_layer model).map
    (fun p => p.sum_grad_squared)).flatten
  (iface.base.factor * loss, diagEF.map (fun v => iface.base.factor * v))

/-- `BackPackEF.kron(X, y)`: `raise NotImplementedError()`, unconditionally
and before anything else (empty event trace). -/
def kron {α : Type} (_iface : BPIface) (_model : TModel)
    (_lossEval : List (List ℚ) → List α → ℚ)
    (_X : List (List ℚ)) (_y : List α) :
    List Event × Except String (ℚ × KronT) :=
  ([], Except.error "NotImplementedError")

/-- `BackPackEF.full(X, y)`: forward pass on the full model, unscaled loss,
backward pass under `BatchGrad`, `Gs = self._get_individual_gradients()`,
`H_ef = Gs.T @ Gs`, then
`(self.factor * loss.detach(), self.factor * H_ef)`. -/
def full {α : Type} (iface : BPIface) (model : TModel)
    (lossEval : List (List ℚ) → List α → ℚ)
    (X : List (List ℚ)) (y : List α) : ℚ × (ℕ → ℕ → ℚ) :=
  let f := model.fullForward X
  let loss := lossEval f y
  let Gs := getIndividualGradients iface model
  (iface.base.factor * loss, fun p q => iface.base.factor * gram Gs p q)

end BackPackEF

/-! ## Helper lemmas -/

theorem init_regression :
    CurvatureInterface.init "regression" = Except.ok regressionBase := by
  rfl

theorem init_classification :
    CurvatureInterface.init "classification" = Except.ok classificationBase := by
  rfl

theorem init_factor_cases {s : String} {base : CurvBase}
    (h : CurvatureInterface.init s = Except.ok base) :
    base.factor = 1/2 ∨ base.factor = 1 := by
  unfold CurvatureInterface.init at h
  split at h
  · split at h
    · exact Or.inl (by cases h; rfl)
    · exact Or.inr (by cases h; rfl)
  · cases h

/-! ## C7 -/

/-- C7: constructing either family with a likelihood outside
`{regression, classification}` fails with an error at construction time;
with a valid likelihood the constructor selects the sum-reduced squared
error (regression) or sum-reduced cross entropy (classification) and the
factor `0.5` or `1.0` respectively. -/
theorem C7_constructor_likelihood :
    (∀ s : String, s ≠ "regression" → s ≠ "classification" →
      CurvatureInterface.init s = Except.error "AssertionError")
    ∧ CurvatureInterface.init "regression" =
        Except.ok ⟨"regression", LossFunc.mseSum, 1/2⟩
    ∧ CurvatureInterface.init "classification" =
        Except.ok ⟨"classification", LossFunc.ceSum, 1⟩ := by
  refine ⟨fun s h1 h2 => ?_, by rfl, by rfl⟩
  unfold CurvatureInterface.init
  rw [if_neg]
  rintro (h | h) <;> [exact h1 h; exact h2 h]

/-- Witness for C7 at the concrete invalid likelihood `"poisson"` and at the
two valid ones. -/
theorem C7_constructor_likelihood_witness :
    CurvatureInterface.init "poisson" = Except.error "AssertionError"
    ∧ CurvatureInterface.init "regression" =
        Except.ok ⟨"regression", LossFunc.mseSum, 1/2⟩ :=
  ⟨C7_constructor_likelihood.1 "poisson" (by decide) (by decide),
   C7_constructor_likelihood.2.1⟩

/-! ## C10 -/

/-- C10: an invalid likelihood makes construction of either concrete family
fail inside the base constructor, before the `extend` registrations on the
model and loss function: the returned registration trace is empty. -/
theorem C10_invalid_likelihood_no_registration (s : String) (ll st : Bool)
    (h1 : s ≠ "regression") (h2 : s ≠ "classification") :
    BackPackGGN.init s ll st = ([], Except.error "AssertionError")
    ∧ BackPackInterface.init s ll = ([], Except.error "AssertionError") := by
  have hbase : CurvatureInterface.init s = Except.error "AssertionError" := by
    unfold CurvatureInterface.init
    rw [if_neg]
    rintro (h | h) <;> [exact h1 h; exact h2 h]
  have hbp : BackPackInterface.init s ll = ([], Except.error "AssertionError") := by
    unfold BackPackInterface.init
    rw [hbase]
  refine ⟨?_, hbp⟩
  unfold BackPackGGN.init
  rw [hbp]

/-- Witness for C10 at the concrete invalid likelihood `"poisson"`. -/
theorem C10_invalid_likelihood_no_registration_witness :
    BackPackGGN.init "poisson" true false = ([], Except.error "AssertionError")
    ∧ BackPackInterface.init "poisson" true = ([], Except.error "AssertionError") :=
  C10_invalid_likelihood_no_registration "poisson" true false (by decide) (by decide)

/-! ## C5 -/

/-- C5: `full` on a GGN interface constructed with `stochastic = True` and
`kron` on the Empirical-Fisher family raise unconditionally, for every
input, with an empty event trace — no forward pass, backward pass or
Jacobian call is executed, so no state is altered.  Both embedded
operations are pure functions of their arguments, so a second identical
call returns the identical error. -/
theorem C5_unsupported_operations_raise {M K P : ℕ} {α β : Type}
    (iface : GGNIface) (h : iface.stochastic = true)
    (softmax : (Fin K → ℚ) → Fin K → ℚ)
    (lossEvalT : (Fin M → Fin K → ℚ) → List α → ℚ)
    (jacs : (Fin M → Fin K → Fin P → ℚ) × (Fin M → Fin K → ℚ)) (y : List α)
    (ef : BPIface) (model : TModel)
    (lossEvalL : List (List ℚ) → List β → ℚ)
    (X : List (List ℚ)) (y2 : List β) :
    BackPackGGN.full iface softmax lossEvalT jacs y =
      ([], Except.error
        "ValueError: Stochastic approximation not implemented for full GGN.")
    ∧ BackPackEF.kron ef model lossEvalL X y2 =
      ([], Except.error "NotImplementedError") := by
  constructor
  · unfold BackPackGGN.full
    rw [if_pos h]
  · rfl

/-- Witness for C5 at concrete inputs (a stochastic regression GGN interface
and an Empirical-Fisher interface on a trivial model and batch). -/
theorem C5_unsupported_operations_raise_witness :
    BackPackGGN.full (M := 1) (K := 1) (P := 1) ⟨regressionBase, false, true⟩
        (fun v => v) (fun _ _ => 0)
        (fun _ _ _ => 0, fun _ _ => 0) ([] : List ℚ) =
      ([], Except.error
        "ValueError: Stochastic approximation not implemented for full GGN.")
    ∧ BackPackEF.kron ⟨regressionBase, false⟩ ⟨fun _ => [], [], []⟩
        (fun _ _ => 0) [] ([] : List ℚ) =
      ([], Except.error "NotImplementedError") :=
  C5_unsupported_operations_raise ⟨regressionBase, false, true⟩ rfl
    (fun v => v) (fun _ _ => 0) (fun _ _ _ => 0, fun _ _ => 0) []
    ⟨regressionBase, false⟩ ⟨fun _ => [], [], []⟩ (fun _ _ => 0) [] []

/-! ## C4 -/

theorem getD_map_lt {α β : Type} (f : α → β) (l : List α) (i : ℕ)
    (h : i < l.length) (d : β) (d' : α) :
    (l.map f).getD i d = f (l.getD i d') := by
  rw [List.getD_eq_getElem _ _ (by simpa using h), List.getD_eq_getElem _ _ h]
  simp

/-- C4: `kron(X, y, N)` rescales the collected Kronecker factors with
`M = len(y)`: every factor group with exactly two factors keeps its first
factor and has its second factor multiplied entrywise by `M/N`; every other
group (in particular every single-factor group) is returned unmodified, and
when `M == N` (with `N ≠ 0`) the whole container is unchanged. -/
theorem C4_kron_rescaling {α : Type} (iface : GGNIface) (model : TModel)
    (lossEval : List (List ℚ) → List α → ℚ) (kronSMul : ℚ → KronT → KronT)
    (X : List (List ℚ)) (y : List α) (N : ℕ) :
    (BackPackGGN.kron iface model lossEval kronSMul X y N =
      (iface.base.factor * lossEval (model.fullForward X) y,
       kronSMul iface.base.factor (BackPackGGN.rescaleKronFactors
         (BackPackGGN.getKronFactors iface model) y.length N)))
    ∧ (∀ (kr : KronT) (i : ℕ) (A B : List (List ℚ)),
        kr.kfacs.getD i [] = [A, B] →
        (BackPackGGN.rescaleKronFactors kr y.length N).kfacs.getD i [] =
          [A, B.map (fun row => row.map (fun x => x * ((y.length : ℚ) / N)))])
    ∧ (∀ (kr : KronT) (i : ℕ),
        (kr.kfacs.getD i []).length ≠ 2 →
        (BackPackGGN.rescaleKronFactors kr y.length N).kfacs.getD i [] =
          kr.kfacs.getD i [])
    ∧ (y.length = N → N ≠ 0 →
        ∀ kr : KronT, BackPackGGN.rescaleKronFactors kr y.length N = kr) := by
  refine ⟨rfl, ?_, ?_, ?_⟩
  · intro kr i A B h
    have hi : i < kr.kfacs.length := by
      by_contra hge
      push_neg at hge
      rw [List.getD_eq_default _ _ hge] at h
      exact absurd h (by simp)
    unfold BackPackGGN.rescaleKronFactors
    rw [getD_map_lt _ _ _ hi _ [], h]
  · intro kr i hlen
    rcases Nat.lt_or_ge i kr.kfacs.length with hi | hi
    · unfold BackPackGGN.rescaleKronFactors
      rw [getD_map_lt _ _ _ hi _ []]
      generalize hF : kr.kfacs.getD i [] = F at hlen ⊢
      rcases F with _ | ⟨a, _ | ⟨b, _ | ⟨c, rest⟩⟩⟩
      · rfl
      · rfl
      · exact absurd rfl hlen
      · rfl
    · unfold BackPackGGN.rescaleKronFactors
      rw [List.getD_eq_default _ _ (by simpa using hi),
        List.getD_eq_default _ _ hi]
  · intro hMN hN kr
    obtain ⟨l⟩ := kr
    unfold BackPackGGN.rescaleKronFactors
    have hone : ((y.length : ℚ) / N) = 1 := by
      rw [hMN]
      exact div_self (Nat.cast_ne_zero.mpr hN)
    congr 1
    simp only [hone, mul_one]
    induction l with
    | nil => rfl
    | cons F l ih =>
        simp only [List.map_cons, List.cons.injEq]
        refine ⟨?_, ih⟩
        rcases F with _ | ⟨a, _ | ⟨b, _ | ⟨c, rest⟩⟩⟩
        · rfl
        · rfl
        · simp
        · rfl

/-- Witness for C4 on a concrete container with one two-factor group and one
single-factor group, with `M = 1 < N = 2`, and on the `M = N = 1` case. -/
theorem C4_kron_rescaling_witness :
    ((BackPackGGN.rescaleKronFactors ⟨[[[[1]], [[2]]], [[[3]]]]⟩ 1 2).kfacs.getD 0 [] =
      [[[1]], [[(2 : ℚ)]].map (fun row => row.map (fun x => x * ((1 : ℚ) / 2)))])
    ∧ ((BackPackGGN.rescaleKronFactors ⟨[[[[1]], [[2]]], [[[3]]]]⟩ 1 2).kfacs.getD 1 [] =
      (⟨[[[[1]], [[2]]], [[[3]]]]⟩ : KronT).kfacs.getD 1 [])
    ∧ BackPackGGN.rescaleKronFactors ⟨[[[[1]], [[2]]], [[[3]]]]⟩ 1 1 =
      ⟨[[[[1]], [[2]]], [[[3]]]]⟩ := by
  refine ⟨?_, ?_, ?_⟩
  · exact (C4_kron_rescaling ⟨regressionBase, false, false⟩ ⟨fun _ => [], [], []⟩
      (fun _ _ => 0) (fun _ k => k) [] [(0 : ℚ)] 2).2.1
      ⟨[[[[1]], [[2]]], [[[3]]]]⟩ 0 [[1]] [[2]] rfl
  · exact (C4_kron_rescaling ⟨regressionBase, false, false⟩ ⟨fun _ => [], [], []⟩
      (fun _ _ => 0) (fun _ k => k) [] [(0 : ℚ)] 2).2.2.1
      ⟨[[[[1]], [[2]]], [[[3]]]]⟩ 1 (by decide)
  · exact (C4_kron_rescaling ⟨regressionBase, false, false⟩ ⟨fun _ => [], [], []⟩
      (fun _ _ => 0) (fun _ k => k) [] [(0 : ℚ)] 1).2.2.2 rfl (by decide)
      ⟨[[[[1]], [[2]]], [[[3]]]]⟩

/-! ## C1 -/

/-- C1 (amended): for every batch, `diag` and `kron` of the GGN family and
`diag` and `full` of the Empirical-Fisher family return the loss and the
curvature both multiplied by `self.factor`; `full` of the GGN family
multiplies the loss by `self.factor` but returns the assembled `H_ggn`
with no factor applied. -/
theorem C1_likelihood_scaling_amended {M K P : ℕ} {α β : Type}
    (base : CurvBase) (ll st : Bool) (model : TModel)
    (lossEvalL : List (List ℚ) → List α → ℚ)
    (kronSMul : ℚ → KronT → KronT)
    (X : List (List ℚ)) (y : List α) (N : ℕ)
    (softmax : (Fin K → ℚ) → Fin K → ℚ)
    (lossEvalT : (Fin M → Fin K → ℚ) → List β → ℚ)
    (Js : Fin M → Fin K → Fin P → ℚ) (f : Fin M → Fin K → ℚ) (yT : List β) :
    (BackPackGGN.diag ⟨base, ll, st⟩ model lossEvalL X y =
      (base.factor * lossEvalL (model.fullForward X) y,
       (BackPackGGN.getDiagGGN ⟨base, ll, st⟩ model).map
         (fun v => base.factor * v)))
    ∧ (BackPackGGN.kron ⟨base, ll, st⟩ model lossEvalL kronSMul X y N =
      (base.factor * lossEvalL (model.fullForward X) y,
       kronSMul base.factor (BackPackGGN.rescaleKronFactors
         (BackPackGGN.getKronFactors ⟨base, ll, st⟩ model) y.length N)))
    ∧ (BackPackEF.diag ⟨base, ll⟩ model lossEvalL X y =
      (base.factor * lossEvalL (model.fullForward X) y,
       ((subModelParams ll model).map
         (fun p => p.sum_grad_squared)).flatten.map (fun v => base.factor * v)))
    ∧ (BackPackEF.full ⟨base, ll⟩ model lossEvalL X y =
      (base.factor * lossEvalL (model.fullForward X) y,
       fun p q => base.factor *
         gram (BackPackEF.getIndividualGradients ⟨base, ll⟩ model) p q))
    ∧ (BackPackGGN.full ⟨base, ll, false⟩ softmax lossEvalT (Js, f) yT =
      ([Event.jacobiansCall], Except.ok
        (base.factor * lossEvalT f yT,
         if base.likelihood = "regression" then einsumJJ Js
         else einsumJHJ Js (hLik (fun m => softmax (f m)))))) := by
  refine ⟨rfl, rfl, rfl, rfl, ?_⟩
  by_cases hb : base.likelihood = "regression"
  · simp [BackPackGGN.full, CurvatureInterface.getFullGGN, hb]
  · simp [BackPackGGN.full, CurvatureInterface.getFullGGN, hb]

/-- C1 counterexample: the claim as stated fails for the GGN family's `full`
under a regression likelihood: the returned curvature is the unscaled
assembly `H_ggn` (here the `einsum('mkp,mkq->pq', Js, Js)` contraction,
which the spec itself gives as the unscaled regression GGN), not
`factor ×` that quantity.  On a one-example, one-output, one-parameter batch
with Jacobian entry `1`, the returned entry is `1` while
`factor × H_unscaled = 1/2`. -/
theorem C1_counterexample :
    ((BackPackGGN.full (M := 1) (K := 1) (P := 1)
        ⟨regressionBase, false, false⟩ (fun v => v) (fun _ _ => 0)
        (fun _ _ _ => 1, fun _ _ => 0) ([] : List ℚ)).2 =
      Except.ok (CurvatureInterface.getFullGGN (M := 1) (K := 1) (P := 1)
        (α := ℚ) regressionBase (fun v => v) (fun _ _ => 0) (fun _ _ _ => 1)
        (fun _ _ => 0) []))
    ∧ (CurvatureInterface.getFullGGN (M := 1) (K := 1) (P := 1) (α := ℚ)
        regressionBase (fun v => v) (fun _ _ => 0) (fun _ _ _ => 1)
        (fun _ _ => 0) []).2 0 0 ≠
      regressionBase.factor *
        einsumJJ (M := 1) (K := 1) (P := 1) (fun _ _ _ => 1) 0 0 := by
  constructor
  · rfl
  · show einsumJJ (M := 1) (K := 1) (P := 1) (fun _ _ _ => 1) 0 0 ≠ _
    simp [einsumJJ, regressionBase]

/-! ## C3 -/

/-- C3 (amended): for a regression likelihood, `full(X, y)` on the exact GGN
family returns the curvature `Σ_examples Jᵗ_example J_example` — the
`einsum('mkp,mkq->pq', Js, Js)` contraction, with no additional factor `0.5`
applied to it (only the loss carries the factor). -/
theorem C3_regression_full_ggn_amended {M K P : ℕ} {α : Type}
    (ll : Bool) (softmax : (Fin K → ℚ) → Fin K → ℚ)
    (lossEval : (Fin M → Fin K → ℚ) → List α → ℚ)
    (Js : Fin M → Fin K → Fin P → ℚ) (f : Fin M → Fin K → ℚ) (y : List α) :
    BackPackGGN.full ⟨regressionBase, ll, false⟩ softmax lossEval (Js, f) y =
      ([Event.jacobiansCall], Except.ok
        (regressionBase.factor * lossEval f y,
         fun p q => ∑ m, ∑ k, Js m k p * Js m k q)) := by
  simp [BackPackGGN.full, CurvatureInterface.getFullGGN, regressionBase]
  rfl

/-- C3 counterexample: the claim as stated — that the returned curvature
equals `0.5 · Σ_examples Jᵗ_example J_example` — fails on a one-example,
one-output, one-parameter batch with Jacobian entry `2`: the code returns
`4` while `0.5 · Σ Jᵗ J = 2`. -/
theorem C3_counterexample :
    ((BackPackGGN.full (M := 1) (K := 1) (P := 1)
        ⟨regressionBase, false, false⟩ (fun v => v) (fun _ _ => 0)
        (fun _ _ _ => 2, fun _ _ => 0) ([] : List ℚ)).2 =
      Except.ok (CurvatureInterface.getFullGGN (M := 1) (K := 1) (P := 1)
        (α := ℚ) regressionBase (fun v => v) (fun _ _ => 0) (fun _ _ _ => 2)
        (fun _ _ => 0) []))
    ∧ (CurvatureInterface.getFullGGN (M := 1) (K := 1) (P := 1) (α := ℚ)
        regressionBase (fun v => v) (fun _ _ => 0) (fun _ _ _ => 2)
        (fun _ _ => 0) []).2 0 0 ≠
      (1/2 : ℚ) * ∑ m : Fin 1, ∑ k : Fin 1,
        (fun (_ : Fin 1) (_ : Fin 1) (_ : Fin 1) => (2 : ℚ)) m k 0 *
        (fun (_ : Fin 1) (_ : Fin 1) (_ : Fin 1) => (2 : ℚ)) m k 0 := by
  constructor
  · rfl
  · show einsumJJ (M := 1) (K := 1) (P := 1) (fun _ _ _ => 2) 0 0 ≠ _
    simp [einsumJJ]

/-! ## C2 -/

/-- C2: for a classification likelihood, `full(X, y)` on the exact GGN family
returns the curvature
`H_pq = Σ_m Σ_{c,k} J_{m,c,p} · (diag(p_m) − p_m p_mᵗ)_{c,k} · J_{m,k,q}`,
where `p_m` is the softmax of example `m`'s raw output `f_m` — the exact
softmax Hessian, not a diagonal approximation. -/
theorem C2_classification_full_ggn {M K P : ℕ} {α : Type}
    (base : CurvBase)
    (hbase : CurvatureInterface.init "classification" = Except.ok base)
    (ll : Bool) (softmax : (Fin K → ℚ) → Fin K → ℚ)
    (lossEval : (Fin M → Fin K → ℚ) → List α → ℚ)
    (Js : Fin M → Fin K → Fin P → ℚ) (f : Fin M → Fin K → ℚ) (y : List α) :
    BackPackGGN.full ⟨base, ll, false⟩ softmax lossEval (Js, f) y =
      ([Event.jacobiansCall], Except.ok
        (base.factor * lossEval f y,
         fun p q => ∑ m, ∑ c, ∑ k,
           Js m c p *
             ((if c = k then softmax (f m) c else 0)
               - softmax (f m) c * softmax (f m) k) *
             Js m k q)) := by
  have hb : base = classificationBase := by
    rw [init_classification] at hbase
    exact (Except.ok.inj hbase).symm
  subst hb
  have hfun : einsumJHJ Js (hLik (fun m => softmax (f m))) =
      fun p q => ∑ m, ∑ c, ∑ k,
        Js m c p *
          ((if c = k then softmax (f m) c else 0)
            - softmax (f m) c * softmax (f m) k) *
          Js m k q := by
    funext p q
    unfold einsumJHJ hLik
    refine Finset.sum_congr rfl fun m _ => ?_
    refine Finset.sum_congr rfl fun c _ => ?_
    refine Finset.sum_congr rfl fun k _ => ?_
    ring
  simp [BackPackGGN.full, CurvatureInterface.getFullGGN, classificationBase,
    ← hfun, classificationBase]

/-- Witness for C2 on a concrete classification interface, one-example,
one-class, one-parameter input. -/
theorem C2_classification_full_ggn_witness :
    BackPackGGN.full (M := 1) (K := 1) (P := 1)
        ⟨classificationBase, false, false⟩ (fun v => v) (fun _ _ => 0)
        (fun _ _ _ => 1, fun _ _ => 0) ([] : List ℚ) =
      ([Event.jacobiansCall], Except.ok
        (classificationBase.factor * (fun (_ : Fin 1 → Fin 1 → ℚ)
            (_ : List ℚ) => (0 : ℚ)) (fun _ _ => 0) [],
         fun p q => ∑ m : Fin 1, ∑ c : Fin 1, ∑ k : Fin 1,
           (fun (_ : Fin 1) (_ : Fin 1) (_ : Fin 1) => (1 : ℚ)) m c p *
             ((if c = k then (fun (v : Fin 1 → ℚ) => v)
                  ((fun (_ : Fin 1) (_ : Fin 1) => (0 : ℚ)) m) c else 0)
               - (fun (v : Fin 1 → ℚ) => v)
                   ((fun (_ : Fin 1) (_ : Fin 1) => (0 : ℚ)) m) c *
                 (fun (v : Fin 1 → ℚ) => v)
                   ((fun (_ : Fin 1) (_ : Fin 1) => (0 : ℚ)) m) k) *
             (fun (_ : Fin 1) (_ : Fin 1) (_ : Fin 1) => (1 : ℚ)) m k q)) :=
  C2_classification_full_ggn classificationBase init_classification false
    (fun v => v) (fun _ _ => 0) (fun _ _ _ => 1) (fun _ _ => 0) []

/-! ## C9 -/

/-- C9: with `last_layer = True`, the `diag` and `kron` operations of the GGN
family and the `diag` and `full` operations of the Empirical-Fisher family
compute the returned loss from the full model's forward pass on `X` (so the
loss is identical to the one the same family returns with
`last_layer = False` on the same batch), while the returned curvature is
assembled only from the last layer's parameters. -/
theorem C9_last_layer_loss_and_curvature {α : Type} (base : CurvBase)
    (st : Bool) (model : TModel)
    (lossEval : List (List ℚ) → List α → ℚ) (kronSMul : ℚ → KronT → KronT)
    (X : List (List ℚ)) (y : List α) (N : ℕ) :
    ((BackPackGGN.diag ⟨base, true, st⟩ model lossEval X y).1 =
        (BackPackGGN.diag ⟨base, false, st⟩ model lossEval X y).1
      ∧ (BackPackGGN.diag ⟨base, true, st⟩ model lossEval X y).1 =
        base.factor * lossEval (model.fullForward X) y)
    ∧ ((BackPackGGN.kron ⟨base, true, st⟩ model lossEval kronSMul X y N).1 =
        (BackPackGGN.kron ⟨base, false, st⟩ model lossEval kronSMul X y N).1
      ∧ (BackPackGGN.kron ⟨base, true, st⟩ model lossEval kronSMul X y N).1 =
        base.factor * lossEval (model.fullForward X) y)
    ∧ ((BackPackEF.diag ⟨base, true⟩ model lossEval X y).1 =
        (BackPackEF.diag ⟨base, false⟩ model lossEval X y).1
      ∧ (BackPackEF.diag ⟨base, true⟩ model lossEval X y).1 =
        base.factor * lossEval (model.fullForward X) y)
    ∧ ((BackPackEF.full ⟨base, true⟩ model lossEval X y).1 =
        (BackPackEF.full ⟨base, false⟩ model lossEval X y).1
      ∧ (BackPackEF.full ⟨base, true⟩ model lossEval X y).1 =
        base.factor * lossEval (model.fullForward X) y)
    ∧ ((BackPackGGN.diag ⟨base, true, st⟩ model lossEval X y).2 =
        ((model.lastLayerParams.map
          (fun p => if st then p.diag_ggn_mc else p.diag_ggn_exact)).flatten).map
          (fun v => base.factor * v))
    ∧ ((BackPackGGN.kron ⟨base, true, st⟩ model lossEval kronSMul X y N).2 =
        kronSMul base.factor (BackPackGGN.rescaleKronFactors
          ⟨model.lastLayerParams.map (fun p => if st then p.kfac else p.kflr)⟩
          y.length N))
    ∧ ((BackPackEF.diag ⟨base, true⟩ model lossEval X y).2 =
        ((model.lastLayerParams.map (fun p => p.sum_grad_squared)).flatten).map
          (fun v => base.factor * v))
    ∧ ((BackPackEF.full ⟨base, true⟩ model lossEval X y).2 =
        fun p q => base.factor *
          gram (catColumns (model.lastLayerParams.map
            (fun p => p.grad_batch))) p q) := by
  cases st <;>
    exact ⟨⟨rfl, rfl⟩, ⟨rfl, rfl⟩, ⟨rfl, rfl⟩, ⟨rfl, rfl⟩, rfl, rfl, rfl, rfl⟩

/-! ## C8 -/

theorem einsumJJ_symm {M K P : ℕ} (Js : Fin M → Fin K → Fin P → ℚ)
    (p q : Fin P) : einsumJJ Js p q = einsumJJ Js q p := by
  unfold einsumJJ
  refine Finset.sum_congr rfl fun m _ => Finset.sum_congr rfl fun k _ => ?_
  ring

theorem einsumJJ_psd {M K P : ℕ} (Js : Fin M → Fin K → Fin P → ℚ)
    (v : Fin P → ℚ) : 0 ≤ ∑ p, ∑ q, v p * einsumJJ Js p q * v q := by
  have h1 : ∑ p, ∑ q, v p * einsumJJ Js p q * v q
      = ∑ m, ∑ k, (∑ p, v p * Js m k p) * (∑ q, v q * Js m k q) := by
    calc ∑ p, ∑ q, v p * einsumJJ Js p q * v q
        = ∑ p, ∑ q, ∑ m, ∑ k, v p * Js m k p * (v q * Js m k q) := by
          refine Finset.sum_congr rfl fun p _ => Finset.sum_congr rfl fun q _ => ?_
          unfold einsumJJ
          simp only [Finset.mul_sum, Finset.sum_mul]
          refine Finset.sum_congr rfl fun m _ => Finset.sum_congr rfl fun k _ => ?_
          ring
      _ = ∑ p, ∑ m, ∑ q, ∑ k, v p * Js m k p * (v q * Js m k q) := by
          refine Finset.sum_congr rfl fun p _ => ?_
          exact Finset.sum_comm
      _ = ∑ m, ∑ p, ∑ q, ∑ k, v p * Js m k p * (v q * Js m k q) := by
          exact Finset.sum_comm
      _ = ∑ m, ∑ p, ∑ k, ∑ q, v p * Js m k p * (v q * Js m k q) := by
          refine Finset.sum_congr rfl fun m _ => Finset.sum_congr rfl fun p _ => ?_
          exact Finset.sum_comm
      _ = ∑ m, ∑ k, ∑ p, ∑ q, v p * Js m k p * (v q * Js m k q) := by
          refine Finset.sum_congr rfl fun m _ => ?_
          exact Finset.sum_comm
      _ = ∑ m, ∑ k, (∑ p, v p * Js m k p) * (∑ q, v q * Js m k q) := by
          refine Finset.sum_congr rfl fun m _ => Finset.sum_congr rfl fun k _ => ?_
          rw [← Finset.sum_mul_sum]
  rw [h1]
  refine Finset.sum_nonneg fun m _ => Finset.sum_nonneg fun k _ => ?_
  exact mul_self_nonneg _

theorem gram_cons (r : List ℚ) (G : List (List ℚ)) (p q : ℕ) :
    gram (r :: G) p q = r.getD p 0 * r.getD q 0 + gram G p q := by
  simp [gram]

theorem gram_symm (G : List (List ℚ)) (p q : ℕ) : gram G p q = gram G q p := by
  unfold gram
  exact congrArg List.sum (List.map_congr_left fun r _ => mul_comm _ _)

theorem gram_psd (G : List (List ℚ)) (P' : ℕ) (v : ℕ → ℚ) :
    0 ≤ ∑ p ∈ Finset.range P', ∑ q ∈ Finset.range P',
      v p * gram G p q * v q := by
  induction G with
  | nil => simp [gram]
  | cons r G ih =>
      have hsplit : ∑ p ∈ Finset.range P', ∑ q ∈ Finset.range P',
            v p * gram (r :: G) p q * v q
          = (∑ p ∈ Finset.range P', v p * r.getD p 0) *
              (∑ q ∈ Finset.range P', v q * r.getD q 0)
            + ∑ p ∈ Finset.range P', ∑ q ∈ Finset.range P',
                v p * gram G p q * v q := by
        rw [Finset.sum_mul_sum, ← Finset.sum_add_distrib]
        refine Finset.sum_congr rfl fun p _ => ?_
        rw [← Finset.sum_add_distrib]
        refine Finset.sum_congr rfl fun q _ => ?_
        rw [gram_cons]
        ring
      rw [hsplit]
      exact add_nonneg (mul_self_nonneg _) ih

/-- C8: the full curvature returned by the Empirical-Fisher family's
`full(X, y)` and the one returned by the exact GGN family's `full(X, y)`
under a regression likelihood are symmetric and positive semidefinite. -/
theorem C8_full_symmetric_psd {M K P : ℕ} {α β : Type}
    (s : String) (base : CurvBase)
    (hbase : CurvatureInterface.init s = Except.ok base)
    (ll ll2 : Bool) (model : TModel)
    (lossEvalL : List (List ℚ) → List α → ℚ)
    (X : List (List ℚ)) (y : List α)
    (softmax : (Fin K → ℚ) → Fin K → ℚ)
    (lossEvalT : (Fin M → Fin K → ℚ) → List β → ℚ)
    (Js : Fin M → Fin K → Fin P → ℚ) (f : Fin M → Fin K → ℚ) (yT : List β)
    (lr : ℚ) (H : Fin P → Fin P → ℚ)
    (hfull : (BackPackGGN.full ⟨regressionBase, ll2, false⟩ softmax lossEvalT
        (Js, f) yT).2 = Except.ok (lr, H)) :
    (∀ p q, H p q = H q p)
    ∧ (∀ v : Fin P → ℚ, 0 ≤ ∑ p, ∑ q, v p * H p q * v q)
    ∧ (∀ p q, (BackPackEF.full ⟨base, ll⟩ model lossEvalL X y).2 p q =
        (BackPackEF.full ⟨base, ll⟩ model lossEvalL X y).2 q p)
    ∧ (∀ (P' : ℕ) (v : ℕ → ℚ),
        0 ≤ ∑ p ∈ Finset.range P', ∑ q ∈ Finset.range P',
          v p * (BackPackEF.full ⟨base, ll⟩ model lossEvalL X y).2 p q * v q) := by
  have hok : (BackPackGGN.full ⟨regressionBase, ll2, false⟩ softmax lossEvalT
      (Js, f) yT).2 = Except.ok (regressionBase.factor * lossEvalT f yT,
        einsumJJ Js) := by
    simp [BackPackGGN.full, CurvatureInterface.getFullGGN, regressionBase]
  rw [hok] at hfull
  have hH : H = einsumJJ Js :=
    ((Prod.mk.injEq _ _ _ _).mp (Except.ok.inj hfull)).2.symm
  subst hH
  have hfac : (0 : ℚ) ≤ base.factor := by
    rcases init_factor_cases hbase with h | h <;> rw [h] <;> norm_num
  refine ⟨einsumJJ_symm Js, einsumJJ_psd Js, ?_, ?_⟩
  · intro p q
    show base.factor * gram (BackPackEF.getIndividualGradients ⟨base, ll⟩ model) p q
      = base.factor * gram (BackPackEF.getIndividualGradients ⟨base, ll⟩ model) q p
    rw [gram_symm]
  · intro P' v
    have hpull : ∑ p ∈ Finset.range P', ∑ q ∈ Finset.range P',
          v p * (BackPackEF.full ⟨base, ll⟩ model lossEvalL X y).2 p q * v q
        = base.factor * ∑ p ∈ Finset.range P', ∑ q ∈ Finset.range P',
            v p * gram (BackPackEF.getIndividualGradients ⟨base, ll⟩ model) p q * v q := by
      rw [Finset.mul_sum]
      refine Finset.sum_congr rfl fun p _ => ?_
      rw [Finset.mul_sum]
      refine Finset.sum_congr rfl fun q _ => ?_
      show v p * (base.factor * _) * v q = _
      ring
    rw [hpull]
    exact mul_nonneg hfac (gram_psd _ _ _)

/-- Witness for C8 on a concrete regression interface, trivial model and a
one-example, one-output, one-parameter Jacobian. -/
theorem C8_full_symmetric_psd_witness :
    ((∀ p q : Fin 1, einsumJJ (M := 1) (K := 1) (P := 1)
        (fun _ _ _ => (1 : ℚ)) p q =
        einsumJJ (M := 1) (K := 1) (P := 1) (fun _ _ _ => (1 : ℚ)) q p)
    ∧ (∀ v : Fin 1 → ℚ, 0 ≤ ∑ p, ∑ q,
        v p * einsumJJ (M := 1) (K := 1) (P := 1) (fun _ _ _ => (1 : ℚ)) p q * v q)
    ∧ (∀ p q, (BackPackEF.full ⟨regressionBase, false⟩
          ⟨fun _ => [], [], [⟨[], [], [1], [[1]], [], []⟩]⟩
          (fun _ _ => 0) [] ([] : List ℚ)).2 p q =
        (BackPackEF.full ⟨regressionBase, false⟩
          ⟨fun _ => [], [], [⟨[], [], [1], [[1]], [], []⟩]⟩
          (fun _ _ => 0) [] ([] : List ℚ)).2 q p)
    ∧ (∀ (Q : ℕ) (v : ℕ → ℚ),
        0 ≤ ∑ p ∈ Finset.range Q, ∑ q ∈ Finset.range Q,
          v p * (BackPackEF.full ⟨regressionBase, false⟩
            ⟨fun _ => [], [], [⟨[], [], [1], [[1]], [], []⟩]⟩
            (fun _ _ => 0) [] ([] : List ℚ)).2 p q * v q)) :=
  C8_full_symmetric_psd (M := 1) (K := 1) (P := 1) (α := ℚ) (β := ℚ)
    "regression" regressionBase init_regression false false
    ⟨fun _ => [], [], [⟨[], [], [1], [[1]], [], []⟩]⟩ (fun _ _ => 0) [] []
    (fun w => w) (fun _ _ => 0) (fun _ _ _ => 1) (fun _ _ => 0) []
    (regressionBase.factor * 0)
    (einsumJJ (M := 1) (K := 1) (P := 1) (fun _ _ _ => 1)) rfl

/-! ## C6 -/

theorem getD_map_mul (c : ℚ) (l : List ℚ) (i : ℕ) :
    (l.map (fun x => c * x)).getD i 0 = c * l.getD i 0 := by
  rcases Nat.lt_or_ge i l.length with h | h
  · rw [List.getD_eq_getElem _ _ (by simpa using h), List.getD_eq_getElem _ _ h]
    simp
  · rw [List.getD_eq_default _ _ (by simpa using h), List.getD_eq_default _ _ h]
    ring

theorem catColumns_length (ts : List (List (List ℚ))) (Mb : ℕ)
    (hne : ts ≠ []) (h : ∀ t ∈ ts, t.length = Mb) :
    (catColumns ts).length = Mb := by
  induction ts with
  | nil => exact absurd rfl hne
  | cons t ts ih =>
      cases ts with
      | nil => exact h t (List.mem_singleton.mpr rfl)
      | cons t' ts' =>
          have h1 : t.length = Mb := h t (List.mem_cons_self t _)
          have h2 : (catColumns (t' :: ts')).length = Mb :=
            ih (by simp) (fun u hu => h u (List.mem_cons_of_mem _ hu))
          show (List.zipWith _ t (catColumns (t' :: ts'))).length = Mb
          rw [List.length_zipWith, h1, h2, min_self]

theorem gram_zipWith_append (A : List (List ℚ)) (B : List (List ℚ)) (d : ℕ)
    (hA : ∀ a ∈ A, a.length = d) (hAB : A.length = B.length) (q : ℕ) :
    gram (List.zipWith (fun r s => r ++ s) A B) q q =
      if q < d then gram A q q else gram B (q - d) (q - d) := by
  induction A generalizing B with
  | nil =>
      have hB : B = [] := List.length_eq_zero.mp hAB.symm
      subst hB
      split <;> simp [gram]
  | cons a A ihA =>
      cases B with
      | nil => exact absurd hAB (by simp)
      | cons b B' =>
          have had : a.length = d := hA a (List.mem_cons_self a _)
          have hA' : ∀ x ∈ A, x.length = d :=
            fun x hx => hA x (List.mem_cons_of_mem _ hx)
          have hAB' : A.length = B'.length := by simpa using hAB
          show gram ((a ++ b) :: List.zipWith _ A B') q q = _
          rw [gram_cons, ihA B' hA' hAB']
          rcases lt_or_le q d with hq | hq
          · rw [if_pos hq, if_pos hq, gram_cons,
              List.getD_append _ _ _ _ (had ▸ hq)]
          · rw [if_neg (not_lt.mpr hq), if_neg (not_lt.mpr hq), gram_cons,
              List.getD_append_right _ _ _ _ (had ▸ hq), had]

/-- For an ordered parameter list whose per-parameter `sum_grad_squared` is
the column-wise sum of squares of its `grad_batch` rows (the documented
contract of the `SumGradSquared` and `BatchGrad` extensions of the external
engine on one and the same batch), the concatenated `sum_grad_squared`
vector is entrywise the diagonal of the Gram matrix of the
column-concatenated per-example gradients. -/
theorem diag_eq_gram_diag (ps : List PTensor) (Mb : ℕ)
    (hM : ∀ p ∈ ps, p.grad_batch.length = Mb)
    (hrect : ∀ p ∈ ps, ∀ r ∈ p.grad_batch,
      r.length = p.sum_grad_squared.length)
    (hsgs : ∀ p ∈ ps, ∀ j < p.sum_grad_squared.length,
      p.sum_grad_squared.getD j 0 =
        (p.grad_batch.map (fun r => r.getD j 0 * r.getD j 0)).sum) :
    ∀ q, ((ps.map (fun p => p.sum_grad_squared)).flatten).getD q 0 =
      gram (catColumns (ps.map (fun p => p.grad_batch))) q q := by
  induction ps with
  | nil => intro q; simp [gram, catColumns]
  | cons p ps ih =>
      intro q
      have hMp : p.grad_batch.length = Mb := hM p (List.mem_cons_self p _)
      have hrp : ∀ r ∈ p.grad_batch, r.length = p.sum_grad_squared.length :=
        hrect p (List.mem_cons_self p _)
      have hsp := hsgs p (List.mem_cons_self p _)
      have ih' := ih (fun x hx => hM x (List.mem_cons_of_mem _ hx))
        (fun x hx => hrect x (List.mem_cons_of_mem _ hx))
        (fun x hx => hsgs x (List.mem_cons_of_mem _ hx))
      cases ps with
      | nil =>
          show ((p.sum_grad_squared :: []).flatten).getD q 0 =
            gram (catColumns [p.grad_batch]) q q
          rw [List.flatten_cons, List.flatten_nil, List.append_nil]
          show p.sum_grad_squared.getD q 0 = gram p.grad_batch q q
          rcases lt_or_le q p.sum_grad_squared.length with hq | hq
          · exact hsp q hq
          · rw [List.getD_eq_default _ _ hq]
            symm
            unfold gram
            refine List.sum_eq_zero fun x hx => ?_
            rcases List.mem_map.mp hx with ⟨r, hr, hrx⟩
            rw [← hrx]
            have hrlen : r.length ≤ q := by rw [hrp r hr]; exact hq
            rw [List.getD_eq_default _ _ hrlen]
            ring
      | cons p' ps' =>
          have hcat : catColumns ((p :: p' :: ps').map (fun x => x.grad_batch)) =
              List.zipWith (fun r s => r ++ s) p.grad_batch
                (catColumns ((p' :: ps').map (fun x => x.grad_batch))) := rfl
          rw [hcat]
          have hBlen : (catColumns ((p' :: ps').map
              (fun x => x.grad_batch))).length = Mb := by
            refine catColumns_length _ Mb (by simp) ?_
            intro t ht
            rcases List.mem_map.mp ht with ⟨x, hx, hxt⟩
            rw [← hxt]
            exact hM x (List.mem_cons_of_mem _ hx)
          rw [gram_zipWith_append _ _ p.sum_grad_squared.length hrp
            (by rw [hMp, hBlen])]
          show ((p.sum_grad_squared :: (p' :: ps').map
            (fun x => x.sum_grad_squared)).flatten).getD q 0 = _
          rw [List.flatten_cons]
          rcases lt_or_le q p.sum_grad_squared.length with hq | hq
          · rw [if_pos hq, List.getD_append _ _ _ _ hq]
            exact hsp q hq
          · rw [if_neg (not_lt.mpr hq), List.getD_append_right _ _ _ _ hq]
            exact ih' (q - p.sum_grad_squared.length)

/-- C6: for every batch, the diagonal curvature returned by the
Empirical-Fisher family's `diag(X, y)` equals the diagonal of the matrix
returned by the same family's `full(X, y)` on the same batch.  The
hypotheses are the documented contract of the external differentiation
engine for one and the same batch: `grad_batch` holds one row per example
(`Mb` rows for every parameter), the rows have the parameter's flattened
width, and `sum_grad_squared` is the column-wise sum of squares of
`grad_batch` (both backward passes are deterministic functions of the
batch, so `diag` and `full` see the same per-example gradients). -/
theorem C6_ef_diag_matches_full_diagonal {α : Type} (bp : BPIface)
    (model : TModel) (lossEval : List (List ℚ) → List α → ℚ)
    (X : List (List ℚ)) (y : List α) (Mb : ℕ)
    (hM : ∀ p ∈ subModelParams bp.last_layer model,
      p.grad_batch.length = Mb)
    (hrect : ∀ p ∈ subModelParams bp.last_layer model,
      ∀ r ∈ p.grad_batch, r.length = p.sum_grad_squared.length)
    (hsgs : ∀ p ∈ subModelParams bp.last_layer model,
      ∀ j < p.sum_grad_squared.length, p.sum_grad_squared.getD j 0 =
        (p.grad_batch.map (fun r => r.getD j 0 * r.getD j 0)).sum) :
    ∀ q, (BackPackEF.diag bp model lossEval X y).2.getD q 0 =
      (BackPackEF.full bp model lossEval X y).2 q q := by
  intro q
  show (((subModelParams bp.last_layer model).map
      (fun p => p.sum_grad_squared)).flatten.map
        (fun v => bp.base.factor * v)).getD q 0
    = bp.base.factor * gram (BackPackEF.getIndividualGradients bp model) q q
  rw [getD_map_mul, diag_eq_gram_diag _ Mb hM hrect hsgs q]
  rfl

/-- Witness for C6 on a concrete two-parameter model (widths 1 and 2, two
examples), with the engine contract discharged by computation. -/
theorem C6_ef_diag_matches_full_diagonal_witness :
    (BackPackEF.diag ⟨regressionBase, false⟩
      ⟨fun _ => [], [⟨[], [], [5], [[1], [2]], [], []⟩,
        ⟨[], [], [9, 25], [[3, 4], [0, 3]], [], []⟩], []⟩
      (fun _ _ => 0) [] ([] : List ℚ)).2.getD 1 0 =
    (BackPackEF.full ⟨regressionBase, false⟩
      ⟨fun _ => [], [⟨[], [], [5], [[1], [2]], [], []⟩,
        ⟨[], [], [9, 25], [[3, 4], [0, 3]], [], []⟩], []⟩
      (fun _ _ => 0) [] ([] : List ℚ)).2 1 1 := by
  refine C6_ef_diag_matches_full_diagonal ⟨regressionBase, false⟩
    ⟨fun _ => [], [⟨[], [], [5], [[1], [2]], [], []⟩,
      ⟨[], [], [9, 25], [[3, 4], [0, 3]], [], []⟩], []⟩
    (fun _ _ => 0) [] ([] : List ℚ) 2 ?_ ?_ ?_ 1
  · intro p hp
    fin_cases hp <;> rfl
  · intro p hp r hr
    fin_cases hp <;> fin_cases hr <;> rfl
  · intro p hp j hj
    fin_cases hp <;>
      simp only [List.length_cons, List.length_nil] at hj <;>
      interval_cases j <;>
      norm_num [List.getD_cons_zero, List.getD_cons_succ]
